import Mathlib

/-!
Shallow embedding of `crontinuous.go` (foomo/crontinuous).

Conventions:
* Go strings and byte slices are modelled as `List Char`, one `Char` per byte
  (all inputs of interest are ASCII); byte values are `Nat` where hashing needs them.
* The fixed 512 KiB output buffer (`make([]byte, logBufferSize)`) is modelled as a
  function `Nat → Char` together with the write cursor `bufferPos`; only indices
  below `bufferPos` are ever read back (`r.buffer[0:r.bufferPos]`).
* External effects are explicit: the cron library's `AddJob` schedule validation is a
  boolean parameter, and `Run`'s interactions with the OS (LookPath, pipes, Start,
  the two scanners, Wait) are an explicit environment record.
* Fatal exits (`log.Fatal`) and the slice-index panic in `parseCrontabLine` are
  explicit outcome constructors.
-/

/- ## Go string primitives -/

/-- `unicode.IsSpace` restricted to the byte-sized code points Go recognises
(' ', '\t', '\n', '\v', '\f', '\r', NEL, NBSP). -/
def goIsSpace (c : Char) : Bool :=
  c == ' ' || c == '\t' || c == '\n' || c == '\r' ||
  c == Char.ofNat 11 || c == Char.ofNat 12 || c == Char.ofNat 133 || c == Char.ofNat 160

def goTrimLeft : List Char → List Char
  | [] => []
  | c :: cs => if goIsSpace c then goTrimLeft cs else c :: cs

/-- `strings.TrimSpace`: drop leading and trailing whitespace. -/
def goTrimSpace (s : List Char) : List Char :=
  (goTrimLeft (goTrimLeft s).reverse).reverse

/-- `strings.HasPrefix(line, "#")`. -/
def startsWithHash : List Char → Bool
  | '#' :: _ => true
  | _ => false

/-- `strings.NewReplacer("  ", " ", "\t", " ").Replace`: one left-to-right pass,
at each position trying the pattern `"  "` first, then `"\t"`. -/
def replacer : List Char → List Char
  | ' ' :: ' ' :: rest => ' ' :: replacer rest
  | '\t' :: rest => ' ' :: replacer rest
  | c :: rest => c :: replacer rest
  | [] => []

/-- Worker for `strings.SplitN(s, " ", n)`: `k` is the number of splits still
allowed, `cur` the (reversed) token being accumulated. -/
def goSplitNAux : Nat → List Char → List Char → List (List Char)
  | _, cur, [] => [cur.reverse]
  | 0, cur, rest => [cur.reverse ++ rest]
  | k + 1, cur, c :: cs =>
    if c = ' ' then cur.reverse :: goSplitNAux k [] cs
    else goSplitNAux (k + 1) (c :: cur) cs

/-- `strings.SplitN(s, " ", n)` for `n ≥ 1`: at most `n` parts, the last part
holding the unsplit remainder (spaces included). -/
def goSplitN (s : List Char) (n : Nat) : List (List Char) :=
  goSplitNAux (n - 1) [] s

/-- Worker for `strings.Split(s, " ")` (unbounded split). -/
def goSplitAllAux : List Char → List Char → List (List Char)
  | cur, [] => [cur.reverse]
  | cur, c :: cs =>
    if c = ' ' then cur.reverse :: goSplitAllAux [] cs
    else goSplitAllAux (c :: cur) cs

/-- `strings.Split(s, " ")`. -/
def goSplitSpaceAll (s : List Char) : List (List Char) :=
  goSplitAllAux [] s

/-- `strings.Join(xs, " ")`. -/
def joinSpace : List (List Char) → List Char
  | [] => []
  | [x] => x
  | x :: xs => x ++ ' ' :: joinSpace xs

/- ## parseCrontabLine -/

/-- Outcome of `parseCrontabLine`, before the scheduler registration step:
the line is silently dropped, or the process panics (slice index out of
range), or a `(schedule, command, args)` triple is extracted. -/
inductive LineOutcome where
  | skipped
  | panicked
  | parsed (schedule command args : List Char)
deriving DecidableEq

/-- `parseCrontabLine` (crontinuous.go:260-298), up to the point where it builds a
`Runnable`.  Trim; drop empty and `#` lines; normalize whitespace with the
replacer; `SplitN` into at most 7 tokens; fewer than 5 tokens drops the line.
`args` mirrors `strings.Join(substrings[6:7], " ")`, which is token 7 when present
and `""` otherwise (the slice reaches into `SplitN`'s spare capacity, whose
element is the zero value).  The unconditional `substrings[5]` panics when the
line has exactly five tokens. -/
def parseCrontabLine (line : List Char) : LineOutcome :=
  let t := goTrimSpace line
  if t.isEmpty || startsWithHash t then .skipped
  else
    let n := replacer t
    let substrings := goSplitN n 7
    if substrings.length < 5 then .skipped
    else
      let args := if 6 ≤ substrings.length then substrings.getD 6 [] else []
      let schedule := '0' :: ' ' :: joinSpace (substrings.take 5)
      if substrings.length < 6 then .panicked
      else .parsed schedule (substrings.getD 5 []) args
/- ## SHA-1 (crypto/sha1) and hex encoding, over byte lists -/

/-- UTF-8 encoding of one character, as byte values (`[]byte(command)`). -/
def utf8EncodeCharBytes (c : Char) : List Nat :=
  let n := c.toNat
  if n < 128 then [n]
  else if n < 2048 then [192 + n / 64, 128 + n % 64]
  else if n < 65536 then [224 + n / 4096, 128 + n / 64 % 64, 128 + n % 64]
  else [240 + n / 262144, 128 + n / 4096 % 64, 128 + n / 64 % 64, 128 + n % 64]

/-- `[]byte(s)`: UTF-8 bytes of a string. -/
def utf8Bytes (s : List Char) : List Nat :=
  (s.map utf8EncodeCharBytes).flatten

/-- Truncation to a 32-bit word. -/
def w32 (n : Nat) : Nat := n % 4294967296

/-- 32-bit left rotation by `k`. -/
def rotl (k n : Nat) : Nat := w32 ((n <<< k) ||| (n >>> (32 - k)))

/-- `k` bytes of `n`, big-endian. -/
def beBytes : Nat → Nat → List Nat
  | 0, _ => []
  | k + 1, n => beBytes k (n / 256) ++ [n % 256]

/-- SHA-1 padding: `0x80`, zeros to 56 mod 64, then the 64-bit bit length. -/
def sha1Pad (msg : List Nat) : List Nat :=
  let len := msg.length
  let zeros := (120 - (len + 1) % 64) % 64
  msg ++ [128] ++ List.replicate zeros 0 ++ beBytes 8 (len * 8)

/-- Big-endian 32-bit words of a byte block. -/
def toWords : List Nat → List Nat
  | b0 :: b1 :: b2 :: b3 :: rest => (((b0 * 256 + b1) * 256 + b2) * 256 + b3) :: toWords rest
  | _ => []

/-- Message-schedule extension: append `k` more words to `ws`. -/
def extendWords (ws : List Nat) : Nat → List Nat
  | 0 => ws
  | k + 1 =>
    let n := ws.length
    let w := rotl 1 (ws.getD (n - 3) 0 ^^^ ws.getD (n - 8) 0 ^^^ ws.getD (n - 14) 0 ^^^
      ws.getD (n - 16) 0)
    extendWords (ws ++ [w]) k

/-- SHA-1 round function. -/
def sha1F (t b c d : Nat) : Nat :=
  if t < 20 then b &&& c ||| (b ^^^ 4294967295) &&& d
  else if t < 40 then b ^^^ c ^^^ d
  else if t < 60 then b &&& c ||| b &&& d ||| c &&& d
  else b ^^^ c ^^^ d

/-- SHA-1 round constants. -/
def sha1K (t : Nat) : Nat :=
  if t < 20 then 1518500249
  else if t < 40 then 1859775393
  else if t < 60 then 2400959708
  else 3395469782

/-- The 80 rounds over the schedule words, threading `(a, b, c, d, e)`. -/
def sha1Rounds : Nat → List Nat → Nat × Nat × Nat × Nat × Nat → Nat × Nat × Nat × Nat × Nat
  | _, [], st => st
  | t, w :: ws, (a, b, c, d, e) =>
    let temp := w32 (rotl 5 a + sha1F t b c d + e + sha1K t + w)
    sha1Rounds (t + 1) ws (temp, a, rotl 30 b, c, d)

/-- Compression of one 64-byte block into the running state. -/
def sha1Compress (h : Nat × Nat × Nat × Nat × Nat) (block : List Nat) :
    Nat × Nat × Nat × Nat × Nat :=
  let ws := extendWords (toWords block) 64
  let (h0, h1, h2, h3, h4) := h
  let (a, b, c, d, e) := sha1Rounds 0 ws (h0, h1, h2, h3, h4)
  (w32 (h0 + a), w32 (h1 + b), w32 (h2 + c), w32 (h3 + d), w32 (h4 + e))

/-- Iterate the compression over `nblocks` 64-byte blocks. -/
def sha1Iter (h : Nat × Nat × Nat × Nat × Nat) (bytes : List Nat) : Nat → Nat × Nat × Nat × Nat × Nat
  | 0 => h
  | k + 1 => sha1Iter (sha1Compress h (bytes.take 64)) (bytes.drop 64) k

/-- SHA-1 digest (20 bytes) of a byte list, as in `sha1.Sum`. -/
def sha1 (msg : List Nat) : List Nat :=
  let padded := sha1Pad msg
  let (h0, h1, h2, h3, h4) :=
    sha1Iter (1732584193, 4023233417, 2562383102, 271733878, 3285377520) padded
      (padded.length / 64)
  beBytes 4 h0 ++ beBytes 4 h1 ++ beBytes 4 h2 ++ beBytes 4 h3 ++ beBytes 4 h4

def hexDigit (n : Nat) : Char :=
  if n < 10 then Char.ofNat (48 + n) else Char.ofNat (87 + n)

/-- `hex.EncodeToString`: two lowercase hex digits per byte. -/
def hexEncode (bs : List Nat) : List Char :=
  (bs.map fun b => [hexDigit (b / 16), hexDigit (b % 16)]).flatten

/- ## Runnable and createRunnable -/

/-- Constant `logBufferSize = 1024 * 512` (512 KiB). -/
def logBufferSize : Nat := 1024 * 512

/-- The `Runnable` struct.  `buffer` models the fixed `[]byte` of length
`logBufferSize`; `contextLogger` carries no state of its own and is omitted. -/
structure Runnable where
  ID : List Char
  Command : List Char
  Args : List Char
  Schedule : List Char
  buffer : Nat → Char
  bufferPos : Nat
  isRunning : Bool

/-- `createRunnable`: the ID is the lowercase-hex SHA-1 of the command bytes
alone; the buffer starts zeroed with the cursor at 0. -/
def createRunnable (command args schedule : List Char) : Runnable :=
  { ID := hexEncode (sha1 (utf8Bytes command))
    Command := command
    Args := args
    Schedule := schedule
    buffer := fun _ => Char.ofNat 0
    bufferPos := 0
    isRunning := false }

/- ## Output buffer: flush and the stdout-append step of Run -/

/-- `string(r.buffer[0:r.bufferPos])`: the readable buffer content. -/
def bufContent (r : Runnable) : List Char :=
  (List.range r.bufferPos).map r.buffer

/-- `copy(r.buffer[r.bufferPos:], message)`: writes
`min (len message) (logBufferSize - pos)` bytes of `message` at `pos`. -/
def copyInto (buf : Nat → Char) (pos : Nat) (message : List Char) : Nat → Char :=
  fun i =>
    if pos ≤ i ∧ i < pos + min message.length (logBufferSize - pos) then
      message.getD (i - pos) (Char.ofNat 0)
    else buf i

/-- `Runnable.flush` (crontinuous.go:85-92): no-op at cursor 0, otherwise emit the
trimmed content `strings.TrimSpace(string(r.buffer[0:r.bufferPos]))` as a log
record and reset the cursor.  `recs` is the stream of emitted flush records. -/
def flushR (r : Runnable) (recs : List (List Char)) : Runnable × List (List Char) :=
  if r.bufferPos = 0 then (r, recs)
  else ({ r with bufferPos := 0 }, recs ++ [goTrimSpace (bufContent r)])

/-- One iteration of the stdout scanner loop (crontinuous.go:190-202) for the
scanned line `line`: `message := line ++ "\n"`; a message larger than the whole
buffer is dropped (only a warning is printed); a message overflowing the
remaining space flushes first; then the message is copied at the cursor and the
cursor advances by its length. -/
def appendMessage (r : Runnable) (recs : List (List Char)) (line : List Char) :
    Runnable × List (List Char) :=
  let message := line ++ ['\n']
  let length := message.length
  if logBufferSize < length then (r, recs)
  else
    let fr := if logBufferSize < length + r.bufferPos then flushR r recs else (r, recs)
    ({ fr.1 with
        buffer := copyInto fr.1.buffer fr.1.bufferPos message
        bufferPos := fr.1.bufferPos + length },
      fr.2)

/-- The whole stdout scanner loop over the scanned lines. -/
def stdoutLoop : Runnable → List (List Char) → List (List Char) → Runnable × List (List Char)
  | r, recs, [] => (r, recs)
  | r, recs, l :: ls =>
    let rr := appendMessage r recs l
    stdoutLoop rr.1 rr.2 ls

/- ## Scheduler registration and initCron -/

/-- The `cron.Cron` scheduler: its registered jobs and whether `Start` ran. -/
structure Scheduler where
  jobs : List Runnable
  running : Bool

/-- The registration tail of `parseCrontabLine` (crontinuous.go:290-297):
`createRunnable` then `cronScheduler.AddJob(schedule, r)`.  The cron library's
schedule validation is abstracted as `scheduleOk`; on a validation error the
job is only logged, not registered.  A panicking line aborts the process. -/
def addLine (scheduleOk : List Char → Bool) (sched : Scheduler) (line : List Char) :
    Except Unit Scheduler :=
  match parseCrontabLine line with
  | .skipped => .ok sched
  | .panicked => .error ()
  | .parsed schedule command args =>
    let r := createRunnable command args schedule
    if scheduleOk schedule then .ok { sched with jobs := sched.jobs ++ [r] }
    else .ok sched

/-- `initCron` (crontinuous.go:230-258): stop the prior scheduler, create a fresh
`cron.New()`, feed every line of the crontab file to `parseCrontabLine`, then
`Start` the new instance.  The file content is given as its list of lines. -/
def initCron (scheduleOk : List Char → Bool) (prior : Scheduler)
    (lines : List (List Char)) : Except Unit Scheduler :=
  let _stopped : Scheduler := { prior with running := false }
  let fresh : Scheduler := { jobs := [], running := false }
  match List.foldlM (addLine scheduleOk) fresh lines with
  | .error e => .error e
  | .ok s => .ok { s with running := true }

/- ## Runnable.Run -/

/-- The process invocation handed to `exec.Command`. -/
structure Cmd where
  path : List Char
  argv : List (List Char)

/-- The invocation built by `Run` (crontinuous.go:151-159): with `-exec go`, the
args string is split on single spaces into discrete argv entries; otherwise
`$SHELL -c "<command> <args>"` (note the shell comes from the environment, not
from the `-exec` flag). -/
def buildCmd (executerFlag shellEnv command args : List Char) : Cmd :=
  if executerFlag = ['g', 'o'] then
    { path := command, argv := goSplitSpaceAll args }
  else
    { path := shellEnv, argv := [['-', 'c'], command ++ ' ' :: args] }

/-- The OS-dependent outcomes `Run` consumes: `exec.LookPath`, the two pipe
acquisitions, `cmd.Start`, the lines and terminal errors of the two scanners,
and `cmd.Wait`.  `none` means success. -/
structure RunEnv where
  lookPathErr : Option (List Char)
  stdoutPipeErr : Option (List Char)
  stderrPipeErr : Option (List Char)
  startErr : Option (List Char)
  stdoutLines : List (List Char)
  stdoutScanErr : Option (List Char)
  stderrLines : List (List Char)
  stderrScanErr : Option (List Char)
  waitErr : Option (List Char)

/-- What one call of `Run` did. -/
structure RunResult where
  errors : List (List Char)
  startAttempted : Bool
  runningWasSet : Bool
  invocation : Option Cmd
  records : List (List Char)
  stderrWarnings : List (List Char)
  final : Runnable

/-- `Run` either completes (logging as it goes) or kills the process via
`log.Fatal` on a pipe-acquisition error. -/
inductive RunOutcome where
  | fatal (msg : List Char)
  | done (res : RunResult)

/-- The error list contributed by an optional error. -/
def optErr : Option (List Char) → List (List Char)
  | some e => [e]
  | none => []

/-- `Runnable.Run` (crontinuous.go:142-224).  LookPath failure logs and returns
with nothing else done.  Pipe failures are `log.Fatal`.  Otherwise the running
flag is set, `cmd.Start` is attempted (its error only logged), the stdout loop
buffers and flushes, each stderr line is logged as a warning, scanner errors
are logged, `cmd.Wait`'s error is logged, and the running flag is cleared. -/
def runModel (executerFlag shellEnv : List Char) (env : RunEnv) (r : Runnable) : RunOutcome :=
  match env.lookPathErr with
  | some e =>
    .done { errors := [e], startAttempted := false, runningWasSet := false,
            invocation := none, records := [], stderrWarnings := [], final := r }
  | none =>
    let cmd := buildCmd executerFlag shellEnv r.Command r.Args
    match env.stdoutPipeErr with
    | some e => .fatal e
    | none =>
      match env.stderrPipeErr with
      | some e => .fatal e
      | none =>
        let r1 : Runnable := { r with isRunning := true }
        let startErrs := optErr env.startErr
        let lp := stdoutLoop r1 [] env.stdoutLines
        let scanErrs := optErr env.stdoutScanErr
        let stderrScanErrs := optErr env.stderrScanErr
        let waitErrs := optErr env.waitErr
        .done { errors := startErrs ++ scanErrs ++ stderrScanErrs ++ waitErrs,
                startAttempted := true, runningWasSet := true,
                invocation := some cmd,
                records := lp.2,
                stderrWarnings := env.stderrLines,
                final := { lp.1 with isRunning := false } }

/- ## Helper lemmas -/

theorem map_eq_of_forall_mem {α β : Type} (l : List α) (f g : α → β)
    (h : ∀ a, a ∈ l → f a = g a) : l.map f = l.map g := by
  induction l with
  | nil => rfl
  | cons x xs ih =>
    simp only [List.map_cons]
    rw [h x (by simp), ih fun a ha => h a (by simp [ha])]

theorem range_map_getD (l : List Char) (d : Char) :
    (List.range l.length).map (fun i => l.getD i d) = l := by
  induction l with
  | nil => rfl
  | cons c cs ih =>
    rw [List.length_cons, List.range_succ_eq_map, List.map_cons, List.map_map]
    simp only [List.getD_cons_zero, Function.comp, List.getD_cons_succ]
    exact congrArg (c :: ·) ih

/-- A message longer than the whole buffer leaves the loop state untouched. -/
theorem appendMessage_oversized (line : List Char)
    (h : logBufferSize < (line ++ ['\n']).length) (r : Runnable) (recs : List (List Char)) :
    appendMessage r recs line = (r, recs) := by
  simp only [appendMessage]
  rw [if_pos h]

/- ## Claims -/

/-- C2: every line that is blank after trimming, or begins with `#` after
trimming, or has fewer than five tokens after whitespace normalization, is
dropped by `parseCrontabLine` and registers nothing with the scheduler. -/
theorem skipped_lines_register_nothing (line : List Char)
    (h : goTrimSpace line = [] ∨ startsWithHash (goTrimSpace line) = true ∨
      (goSplitN (replacer (goTrimSpace line)) 7).length < 5) :
    parseCrontabLine line = .skipped ∧
      ∀ scheduleOk sched, addLine scheduleOk sched line = .ok sched := by
  have hp : parseCrontabLine line = .skipped := by
    simp only [parseCrontabLine]
    rcases h with h | h | h
    · simp [h]
    · simp [h]
    · by_cases hg : ((goTrimSpace line).isEmpty || startsWithHash (goTrimSpace line)) = true
      · simp [hg]
      · simp [hg, if_pos h]
  refine ⟨hp, fun scheduleOk sched => ?_⟩
  simp [addLine, hp]

theorem skipped_lines_register_nothing_witness :
    (goTrimSpace "# daily backup".toList = [] ∨
      startsWithHash (goTrimSpace "# daily backup".toList) = true ∨
      (goSplitN (replacer (goTrimSpace "# daily backup".toList)) 7).length < 5) ∧
    (parseCrontabLine "# daily backup".toList = .skipped ∧
      ∀ scheduleOk sched, addLine scheduleOk sched "# daily backup".toList = .ok sched) :=
  ⟨by decide, skipped_lines_register_nothing _ (by decide)⟩

/-- C1 counterexample: two lines with at least five normalized tokens on which
the parser does not derive anything.  `"* * * * *"` has exactly five tokens,
passes the `len(substrings) < 5` guard, and the unconditional `substrings[5]`
access panics (index out of range); `"# a b c d e f"` has six tokens but is
discarded by the comment check before any derivation. -/
theorem five_token_line_not_parsed :
    (5 ≤ (goSplitN (replacer (goTrimSpace "* * * * *".toList)) 7).length ∧
      parseCrontabLine "* * * * *".toList = .panicked) ∧
    (5 ≤ (goSplitN (replacer (goTrimSpace "# a b c d e f".toList)) 7).length ∧
      parseCrontabLine "# a b c d e f".toList = .skipped) := by decide

/-- C1 (amended): for every line that does not begin with `#` after trimming
and whose normalized form splits into at least six tokens, the parser derives
the schedule `"0 "` followed by the first five tokens joined by single spaces,
takes the sixth token as the command, and takes the seventh token (if present)
verbatim as the argument string, or the empty string otherwise.  (A
non-comment line with exactly five tokens instead panics the parser.) -/
theorem parse_line_shape (line : List Char)
    (hnh : startsWithHash (goTrimSpace line) = false)
    (h6 : 6 ≤ (goSplitN (replacer (goTrimSpace line)) 7).length) :
    parseCrontabLine line =
      .parsed ('0' :: ' ' :: joinSpace ((goSplitN (replacer (goTrimSpace line)) 7).take 5))
        ((goSplitN (replacer (goTrimSpace line)) 7).getD 5 [])
        ((goSplitN (replacer (goTrimSpace line)) 7).getD 6 []) := by
  have hie : (goTrimSpace line).isEmpty = false := by
    cases hgt : goTrimSpace line with
    | nil => rw [hgt] at h6; exact absurd h6 (by decide)
    | cons a l => rfl
  have h5 : ¬ (goSplitN (replacer (goTrimSpace line)) 7).length < 5 := by omega
  have hlt6 : ¬ (goSplitN (replacer (goTrimSpace line)) 7).length < 6 := by omega
  simp [parseCrontabLine, hie, hnh, h5, hlt6, h6]

theorem parse_line_shape_witness :
    startsWithHash (goTrimSpace "0 2 * * * /bin/backup.sh --full".toList) = false ∧
    6 ≤ (goSplitN (replacer (goTrimSpace "0 2 * * * /bin/backup.sh --full".toList)) 7).length ∧
    parseCrontabLine "0 2 * * * /bin/backup.sh --full".toList =
      .parsed ('0' :: ' ' :: joinSpace
          ((goSplitN (replacer (goTrimSpace "0 2 * * * /bin/backup.sh --full".toList)) 7).take 5))
        ((goSplitN (replacer (goTrimSpace "0 2 * * * /bin/backup.sh --full".toList)) 7).getD 5 [])
        ((goSplitN (replacer (goTrimSpace "0 2 * * * /bin/backup.sh --full".toList)) 7).getD 6
          []) :=
  ⟨by decide, by decide, parse_line_shape _ (by decide) (by decide)⟩

/-- C6: the job identity is the hex SHA-1 content hash of the command string
alone, so two entries with the same command collide on identity regardless of
their argument strings and schedules. -/
theorem job_identity_depends_only_on_command (c a1 s1 a2 s2 : List Char) :
    (createRunnable c a1 s1).ID = (createRunnable c a2 s2).ID ∧
    (createRunnable c a1 s1).ID = hexEncode (sha1 (utf8Bytes c)) :=
  ⟨rfl, rfl⟩

/-- C3: a stdout line whose message (line plus newline) alone exceeds the
512 KiB buffer is dropped whole: the buffer bytes, the cursor and the flush
records are untouched, and the records of any scan containing it equal the
records of the same scan without it. -/
theorem oversized_message_never_stored (r : Runnable) (recs : List (List Char))
    (line : List Char) (h : logBufferSize < (line ++ ['\n']).length) :
    appendMessage r recs line = (r, recs) ∧
    ∀ pre post, stdoutLoop r recs (pre ++ line :: post) = stdoutLoop r recs (pre ++ post) := by
  refine ⟨appendMessage_oversized line h r recs, ?_⟩
  intro pre post
  induction pre generalizing r recs with
  | nil =>
    show stdoutLoop (appendMessage r recs line).1 (appendMessage r recs line).2 post =
      stdoutLoop r recs post
    rw [appendMessage_oversized line h r recs]
  | cons x xs ih =>
    show stdoutLoop (appendMessage r recs x).1 (appendMessage r recs x).2 (xs ++ line :: post) =
      stdoutLoop (appendMessage r recs x).1 (appendMessage r recs x).2 (xs ++ post)
    exact ih _ _

theorem oversized_message_never_stored_witness :
    logBufferSize < (List.replicate logBufferSize 'a' ++ ['\n']).length ∧
    (appendMessage (createRunnable "c".toList [] "s".toList) []
        (List.replicate logBufferSize 'a') = (createRunnable "c".toList [] "s".toList, []) ∧
      ∀ pre post,
        stdoutLoop (createRunnable "c".toList [] "s".toList) []
            (pre ++ List.replicate logBufferSize 'a' :: post) =
          stdoutLoop (createRunnable "c".toList [] "s".toList) [] (pre ++ post)) :=
  ⟨by rw [List.length_append, List.length_replicate]; exact Nat.lt_succ_self _,
    oversized_message_never_stored _ _ _
      (by rw [List.length_append, List.length_replicate]; exact Nat.lt_succ_self _)⟩

/-- C4: the invariant `bufferPos ≤ logBufferSize` holds on a fresh `Runnable`
and is preserved by every iteration of the stdout-append loop and by every
flush. -/
theorem buffer_cursor_bounded :
    (∀ command args schedule, (createRunnable command args schedule).bufferPos ≤ logBufferSize) ∧
    (∀ r recs line, r.bufferPos ≤ logBufferSize →
      (appendMessage r recs line).1.bufferPos ≤ logBufferSize) ∧
    (∀ r recs, r.bufferPos ≤ logBufferSize → (flushR r recs).1.bufferPos ≤ logBufferSize) := by
  refine ⟨fun command args schedule => Nat.zero_le _, fun r recs line h => ?_, fun r recs h => ?_⟩
  · simp only [appendMessage, flushR, List.length_append, List.length_cons, List.length_nil]
    split_ifs with h1 h2 h3 <;> simp [List.length_append] <;> omega
  · simp only [flushR]
    split_ifs with h1 <;> simp [h]

theorem buffer_cursor_bounded_witness :
    (createRunnable "c".toList [] "s".toList).bufferPos ≤ logBufferSize ∧
    (⟨[], [], [], [], fun _ => Char.ofNat 0, 7, false⟩ : Runnable).bufferPos ≤ logBufferSize ∧
    (appendMessage ⟨[], [], [], [], fun _ => Char.ofNat 0, 7, false⟩ []
        "hi".toList).1.bufferPos ≤ logBufferSize ∧
    (flushR ⟨[], [], [], [], fun _ => Char.ofNat 0, 7, false⟩ []).1.bufferPos ≤ logBufferSize :=
  ⟨buffer_cursor_bounded.1 _ _ _, by decide,
    buffer_cursor_bounded.2.1 _ _ _ (by decide),
    buffer_cursor_bounded.2.2 _ _ (by decide)⟩

/-- C5: an append that fits the buffer alone but not the remaining space first
flushes exactly the pre-overflow content (trimmed of surrounding whitespace) as
one record, resets the cursor, and then stores the new message from position
zero, leaving the cursor at the message length. -/
theorem overflow_flushes_then_stores (r : Runnable) (recs : List (List Char))
    (line : List Char)
    (h1 : (line ++ ['\n']).length ≤ logBufferSize)
    (h2 : logBufferSize < (line ++ ['\n']).length + r.bufferPos) :
    (appendMessage r recs line).2 = recs ++ [goTrimSpace (bufContent r)] ∧
    (appendMessage r recs line).1.bufferPos = (line ++ ['\n']).length ∧
    bufContent (appendMessage r recs line).1 = line ++ ['\n'] := by
  have hno : ¬ logBufferSize < (line ++ ['\n']).length := not_lt.mpr h1
  have hpos : ¬ r.bufferPos = 0 := by omega
  have hstep : appendMessage r recs line =
      ({ r with buffer := copyInto r.buffer 0 (line ++ ['\n']),
                bufferPos := (line ++ ['\n']).length },
        recs ++ [goTrimSpace (bufContent r)]) := by
    simp only [appendMessage, flushR, if_neg hno, if_pos h2, if_neg hpos, Nat.zero_add]
  rw [hstep]
  refine ⟨rfl, rfl, ?_⟩
  show (List.range (line ++ ['\n']).length).map (copyInto r.buffer 0 (line ++ ['\n'])) =
    line ++ ['\n']
  rw [map_eq_of_forall_mem _ _ (fun i => (line ++ ['\n']).getD i (Char.ofNat 0)) ?_]
  · exact range_map_getD _ _
  · intro i hi
    rw [List.mem_range] at hi
    simp only [copyInto]
    rw [if_pos, Nat.sub_zero]
    refine ⟨Nat.zero_le i, ?_⟩
    rw [Nat.zero_add, Nat.sub_zero, Nat.min_eq_left h1]
    exact hi

theorem overflow_flushes_then_stores_witness :
    ("hi".toList ++ ['\n']).length ≤ logBufferSize ∧
    logBufferSize < ("hi".toList ++ ['\n']).length +
      (⟨[], [], [], [], fun _ => Char.ofNat 0, logBufferSize, false⟩ : Runnable).bufferPos ∧
    ((appendMessage ⟨[], [], [], [], fun _ => Char.ofNat 0, logBufferSize, false⟩ []
        "hi".toList).2 =
      [] ++ [goTrimSpace
        (bufContent ⟨[], [], [], [], fun _ => Char.ofNat 0, logBufferSize, false⟩)] ∧
    (appendMessage ⟨[], [], [], [], fun _ => Char.ofNat 0, logBufferSize, false⟩ []
        "hi".toList).1.bufferPos = ("hi".toList ++ ['\n']).length ∧
    bufContent (appendMessage ⟨[], [], [], [], fun _ => Char.ofNat 0, logBufferSize, false⟩ []
        "hi".toList).1 = "hi".toList ++ ['\n']) :=
  ⟨by decide, by decide, overflow_flushes_then_stores _ _ _ (by decide) (by decide)⟩

/-- C7: when `exec.LookPath` cannot resolve the command, `Run` logs the error
and returns with no other effect: no start attempt, the running flag is never
set, no flush record or stderr warning is produced, and the `Runnable` state
(buffer, cursor, flag) is returned exactly as it was.  `Run` never touches the
scheduler, so the registration survives for the next firing. -/
theorem unresolvable_command_no_side_effects (executerFlag shellEnv : List Char)
    (env : RunEnv) (r : Runnable) (e : List Char) (h : env.lookPathErr = some e) :
    runModel executerFlag shellEnv env r =
      .done { errors := [e], startAttempted := false, runningWasSet := false,
              invocation := none, records := [], stderrWarnings := [], final := r } := by
  simp only [runModel, h]

theorem unresolvable_command_no_side_effects_witness :
    (⟨some "enf".toList, none, none, none, [], none, [], none, none⟩ : RunEnv).lookPathErr =
      some "enf".toList ∧
    runModel "sh".toList "sh".toList
        ⟨some "enf".toList, none, none, none, [], none, [], none, none⟩
        (createRunnable "c".toList [] "s".toList) =
      .done { errors := ["enf".toList], startAttempted := false, runningWasSet := false,
              invocation := none, records := [], stderrWarnings := [],
              final := createRunnable "c".toList [] "s".toList } :=
  ⟨rfl, unresolvable_command_no_side_effects _ _ _ _ _ rfl⟩

/-- C8: whenever `Run` reaches the invocation-building step, the invocation is
`command` with the args string split on single spaces when the `-exec` flag is
the literal `"go"`, and otherwise the `$SHELL` interpreter with `-c` and the
single string `command ++ " " ++ args`. -/
theorem invocation_built_as_specified (executerFlag shellEnv : List Char) (env : RunEnv)
    (r : Runnable) (h1 : env.lookPathErr = none) (h2 : env.stdoutPipeErr = none)
    (h3 : env.stderrPipeErr = none) :
    ∃ res, runModel executerFlag shellEnv env r = .done res ∧
      res.invocation = some (if executerFlag = ['g', 'o'] then
          { path := r.Command, argv := goSplitSpaceAll r.Args }
        else { path := shellEnv, argv := [['-', 'c'], r.Command ++ ' ' :: r.Args] }) := by
  simp only [runModel, h1, h2, h3]
  exact ⟨_, rfl, rfl⟩

theorem invocation_built_as_specified_witness :
    (⟨none, none, none, none, [], none, [], none, none⟩ : RunEnv).lookPathErr = none ∧
    (⟨none, none, none, none, [], none, [], none, none⟩ : RunEnv).stdoutPipeErr = none ∧
    (⟨none, none, none, none, [], none, [], none, none⟩ : RunEnv).stderrPipeErr = none ∧
    ∃ res, runModel "go".toList "sh".toList
          ⟨none, none, none, none, [], none, [], none, none⟩
          (createRunnable "c".toList "a b".toList "s".toList) = .done res ∧
      res.invocation = some (if ("go".toList : List Char) = ['g', 'o'] then
          { path := (createRunnable "c".toList "a b".toList "s".toList).Command,
            argv := goSplitSpaceAll (createRunnable "c".toList "a b".toList "s".toList).Args }
        else { path := "sh".toList,
               argv := [['-', 'c'],
                 (createRunnable "c".toList "a b".toList "s".toList).Command ++ ' ' ::
                   (createRunnable "c".toList "a b".toList "s".toList).Args] }) :=
  ⟨rfl, rfl, rfl, invocation_built_as_specified _ _ _ _ rfl rfl rfl⟩

/-- C9: `initCron` rebuilds the scheduler from the file content alone — the
prior instance is stopped and discarded, never consulted — so if a reload of
some content produced the scheduler `s`, reloading the same content again (from
`s` or from any other prior instance) produces exactly `s` again: the job set
is identical, with nothing stale carried over. -/
theorem reload_idempotent (scheduleOk : List Char → Bool) (prior s : Scheduler)
    (lines : List (List Char)) (h : initCron scheduleOk prior lines = .ok s) :
    initCron scheduleOk s lines = .ok s ∧
      ∀ prior2, initCron scheduleOk prior2 lines = .ok s := by
  have key : ∀ p : Scheduler, initCron scheduleOk p lines = initCron scheduleOk prior lines :=
    fun p => rfl
  exact ⟨(key s).trans h, fun p2 => (key p2).trans h⟩

theorem reload_idempotent_witness :
    initCron (fun _ => true) ⟨[], false⟩ ["# a".toList] = .ok ⟨[], true⟩ ∧
    (initCron (fun _ => true) ⟨[], true⟩ ["# a".toList] = .ok ⟨[], true⟩ ∧
      ∀ prior2, initCron (fun _ => true) prior2 ["# a".toList] = .ok ⟨[], true⟩) :=
  ⟨rfl, reload_idempotent (fun _ => true) ⟨[], false⟩ ⟨[], true⟩ ["# a".toList] rfl⟩

/-- C10: if `cmd.Start` fails (with the command resolvable and both pipes
acquired), `Run` merely logs the error in front of the later ones and proceeds
unchanged: the running flag was set to true before the attempt, the stdout
loop, stderr loop and wait step all still happen, and the flag is cleared at
the end. -/
theorem start_failure_run_continues (executerFlag shellEnv : List Char) (env : RunEnv)
    (r : Runnable) (e : List Char)
    (h1 : env.lookPathErr = none) (h2 : env.stdoutPipeErr = none)
    (h3 : env.stderrPipeErr = none) (h4 : env.startErr = some e) :
    runModel executerFlag shellEnv env r =
      .done { errors := e :: (optErr env.stdoutScanErr ++ optErr env.stderrScanErr ++
                optErr env.waitErr),
              startAttempted := true, runningWasSet := true,
              invocation := some (buildCmd executerFlag shellEnv r.Command r.Args),
              records := (stdoutLoop { r with isRunning := true } [] env.stdoutLines).2,
              stderrWarnings := env.stderrLines,
              final := { (stdoutLoop { r with isRunning := true } [] env.stdoutLines).1 with
                isRunning := false } } := by
  simp only [runModel, h1, h2, h3, h4, optErr, List.singleton_append, List.cons_append,
    List.nil_append]

theorem start_failure_run_continues_witness :
    (⟨none, none, none, some "boom".toList, ["out".toList], none, ["err".toList], none,
        none⟩ : RunEnv).lookPathErr = none ∧
    (⟨none, none, none, some "boom".toList, ["out".toList], none, ["err".toList], none,
        none⟩ : RunEnv).stdoutPipeErr = none ∧
    (⟨none, none, none, some "boom".toList, ["out".toList], none, ["err".toList], none,
        none⟩ : RunEnv).stderrPipeErr = none ∧
    (⟨none, none, none, some "boom".toList, ["out".toList], none, ["err".toList], none,
        none⟩ : RunEnv).startErr = some "boom".toList ∧
    runModel "sh".toList "sh".toList
        ⟨none, none, none, some "boom".toList, ["out".toList], none, ["err".toList], none, none⟩
        (createRunnable "c".toList [] "s".toList) =
      .done { errors := "boom".toList :: (optErr none ++ optErr none ++ optErr none),
              startAttempted := true, runningWasSet := true,
              invocation := some (buildCmd "sh".toList "sh".toList
                (createRunnable "c".toList [] "s".toList).Command
                (createRunnable "c".toList [] "s".toList).Args),
              records := (stdoutLoop
                { createRunnable "c".toList [] "s".toList with isRunning := true } []
                ["out".toList]).2,
              stderrWarnings := ["err".toList],
              final := { (stdoutLoop
                { createRunnable "c".toList [] "s".toList with isRunning := true } []
                ["out".toList]).1 with isRunning := false } } :=
  ⟨rfl, rfl, rfl, rfl, start_failure_run_continues _ _ _ _ _ rfl rfl rfl rfl⟩
